import Mathlib

/-!
Verification of the rumdl/markdownlint parity-check harness
(`parity_check.py`): a shallow embedding of its data model, path
normalization, warning normalizers, set-based comparator, aggregator and
reporter, followed by theorems settling the specification's claims.

Modelling conventions:
* Filesystem paths are modelled by `PPath`: an absoluteness flag plus the
  list of path components (mirroring `pathlib.Path.parts`, with the flag
  standing for the leading `/` part).  `str(path)` is `PPath.render`.
* The ambient working directory `Path.cwd()` is threaded explicitly as a
  `cwd : PPath` argument.
* Raw JSON warning objects are records of `Option`-typed fields; `none`
  models an absent key (or a JSON `null` where the code treats the two
  identically, as it does for every field the claims touch).
* Python code that can raise is embedded in `Except String`; the error
  string names the Python exception.
* Python `set` objects over hashable key tuples are modelled as `Finset`.
* Console printing is abstracted to the lines the claims mention.
-/

deriving instance DecidableEq for Except

/-- A filesystem path: `abs` says whether it is absolute, `comps` are the
path components (`pathlib.Path.parts` without the leading `/`). -/
structure PPath where
  abs : Bool
  comps : List String
deriving DecidableEq, Repr

/-- `str(path)`. -/
def PPath.render (p : PPath) : String :=
  (if p.abs then "/" else "") ++ String.intercalate "/" p.comps

/-- `Path.relative_to`: succeeds when `base`'s parts are a prefix of `p`'s
parts (with matching absoluteness), returning the remainder as a relative
path; otherwise Python raises `ValueError`, modelled as `none`.  An empty
remainder renders as `.` in Python. -/
def PPath.relative_to (p base : PPath) : Option PPath :=
  if p.abs = base.abs && base.comps.isPrefixOf p.comps then
    let rest := p.comps.drop base.comps.length
    some ⟨false, if rest.isEmpty then ["."] else rest⟩
  else none

/-- `Path.absolute()`: an absolute path is returned unchanged, a relative
one is prefixed with the working directory. -/
def PPath.absolute (p cwd : PPath) : PPath :=
  if p.abs then p else ⟨cwd.abs, cwd.comps ++ p.comps⟩

/-- A raw rumdl warning object (`rumdl check -o json` element schema). -/
structure RumdlRaw where
  line : Option Int
  column : Option Int
  rule_name : Option String
  message : Option String
  fix : Option String
deriving DecidableEq, Repr

/-- A raw markdownlint warning object (`markdownlint --json` element
schema).  `ruleNames` is an ordered list of rule-name aliases. -/
structure MdlRaw where
  fileName : Option PPath
  lineNumber : Option Int
  errorRange : Option (List Int)
  ruleNames : Option (List String)
  ruleDescription : Option String
  fixInfo : Option String
deriving DecidableEq, Repr

/-- The canonical warning record both normalizers produce: the common
format the comparator works on. -/
structure Warning where
  file : Option String
  line : Option Int
  column : Int
  rule : Option String
  message : Option String
  fix : Option String
deriving DecidableEq, Repr

/-- `normalize_rumdl(warning, file)`: the `file` field is
`str(file.relative_to(Path.cwd()))` with no fallback, so a source path
not under the working root raises `ValueError`; `line` is
`warning.get("line")` (possibly `None`), `column` defaults to 1. -/
def normalize_rumdl (cwd : PPath) (warning : RumdlRaw) (file : PPath) :
    Except String Warning :=
  match file.relative_to cwd with
  | none => .error "ValueError: path is not relative to cwd"
  | some rel =>
    .ok { file := some rel.render
          line := warning.line
          column := warning.column.getD 1
          rule := warning.rule_name
          message := warning.message
          fix := warning.fix }

/-- `normalize_markdownlint(warning)`: the reported `fileName`, when
absolute, is rewritten relative to the working root if possible and kept
as is otherwise; `column` is the first element of a non-empty
`errorRange` and 1 otherwise; `rule` is `warning.get("ruleNames",
[None])[0]`, which indexes an *empty* present list and so raises
`IndexError` on `ruleNames = []`. -/
def normalize_markdownlint (cwd : PPath) (warning : MdlRaw) :
    Except String Warning :=
  let file_path : Option PPath :=
    match warning.fileName with
    | none => none
    | some p =>
      if p.abs then
        match p.relative_to cwd with
        | some rel => some rel
        | none => some p
      else some p
  match warning.ruleNames with
  | some [] => .error "IndexError: list index out of range"
  | rns =>
    .ok { file := file_path.map PPath.render
          line := warning.lineNumber
          column := match warning.errorRange with
                    | some (c :: _) => c
                    | _ => 1
          rule := match rns with
                  | some (r :: _) => some r
                  | _ => none
          message := warning.ruleDescription
          fix := warning.fixInfo }

example :
    normalize_rumdl ⟨true, ["work"]⟩
      ⟨some 5, none, some "MD013", some "line too long", none⟩
      ⟨true, ["work", "corpus", "a.md"]⟩ =
    .ok ⟨some "corpus/a.md", some 5, 1, some "MD013",
         some "line too long", none⟩ := rfl

example :
    normalize_markdownlint ⟨true, ["work"]⟩
      ⟨some ⟨true, ["work", "corpus", "a.md"]⟩, some 5, some [7, 9],
       some ["MD013", "line-length"], some "line too long", none⟩ =
    .ok ⟨some "corpus/a.md", some 5, 7, some "MD013",
         some "line too long", none⟩ := rfl

/-- The line component of the sort key, `w.get("line", 0)`: canonical
records always carry the `line` key, so the default never fires and the
value is `w.line` (possibly `None`).  Python would raise `TypeError`
comparing `None` with an `int`; the model totalizes the order with `none`
(`⊥`) first — no claim depends on that choice, since the sort only
matters through stability, which holds for any total comparator. -/
def lineSortKey : Option Int → WithBot Int
  | none => ⊥
  | some n => (n : WithBot Int)

/-- The rule component of the sort key, `w.get("rule", "")` (the key is
always present; same totalization caveat as `lineSortKey`). -/
def ruleSortKey : Option String → WithBot String
  | none => ⊥
  | some s => (s : WithBot String)

/-- The sort key `key(w) = (w.get("line", 0), w.get("rule", ""))` used by
`sorted(..., key=key)` in both `compare_warnings` and `main`, as a
lexicographically ordered pair. -/
def sortKey (w : Warning) : WithBot Int ×ₗ WithBot String :=
  toLex (lineSortKey w.line, ruleSortKey w.rule)

/-- The order realized by `sorted(l, key=key)`: lexicographic comparison
of sort keys. -/
def pyLE (a b : Warning) : Prop :=
  sortKey a ≤ sortKey b

instance : DecidableRel pyLE := fun a b =>
  inferInstanceAs (Decidable (sortKey a ≤ sortKey b))

/-- `sorted(l, key=key)`: a stable sort by `(line, rule)` (Python's
`sorted` is specified to be stable; any stable sort models it). -/
def pySorted (l : List Warning) : List Warning :=
  l.insertionSort pyLE

/-- `warning_key(w) = (w.get("file"), w.get("line"), w.get("rule"))`: the
identity key of the comparison (all three keys are always present on a
canonical record). -/
def warning_key (w : Warning) : Option String × Option Int × Option String :=
  (w.file, w.line, w.rule)

/-- The identity-key tuple type. -/
abbrev WKey := Option String × Option Int × Option String

/-- `set(warning_key(w) for w in sorted(l, key=key))`. -/
def keySet (l : List Warning) : Finset WKey :=
  ((pySorted l).map warning_key).toFinset

/-- The pure content of the standalone `compare_warnings` function:
the two key sets, the three partitions and the returned boolean
(`True` exactly when both difference sets are empty). -/
def compare_warnings (rumdl_warnings markdownlint_warnings : List Warning) :
    Finset WKey × Finset WKey × Finset WKey × Bool :=
  let r_sorted := pySorted rumdl_warnings
  let m_sorted := pySorted markdownlint_warnings
  let r_set := (r_sorted.map warning_key).toFinset
  let m_set := (m_sorted.map warning_key).toFinset
  let only_in_rumdl := r_set \ m_set
  let only_in_markdownlint := m_set \ r_set
  let common := r_set ∩ m_set
  (only_in_rumdl, only_in_markdownlint, common,
    only_in_rumdl = ∅ && only_in_markdownlint = ∅)

/-- The comparison written inline in `main`'s per-file loop (a textual
duplicate of the logic of `compare_warnings`): the three partitions and
the pass flag (`✓ All warnings match!` exactly when both difference sets
are empty). -/
def mainInlineCompare (rumdl_norm markdownlint_norm : List Warning) :
    Finset WKey × Finset WKey × Finset WKey × Bool :=
  let r_sorted := pySorted rumdl_norm
  let m_sorted := pySorted markdownlint_norm
  let r_set := (r_sorted.map warning_key).toFinset
  let m_set := (m_sorted.map warning_key).toFinset
  let only_in_rumdl := r_set \ m_set
  let only_in_markdownlint := m_set \ r_set
  let common := r_set ∩ m_set
  (only_in_rumdl, only_in_markdownlint, common,
    only_in_rumdl = ∅ && only_in_markdownlint = ∅)

/-- One corpus file together with the raw output the two tool adapters
returned for it. -/
structure FileInput where
  path : PPath
  rumdl_raw : List RumdlRaw
  markdownlint_raw : List MdlRaw
deriving Repr

/-- What the body of `main`'s per-file loop computes: the normalized
lists (`mdl_prefilter` is the first binding of `markdownlint_norm`,
before the reassignment that filters it to the current file), the two
path renderings used by the filter, and the three partitions. -/
structure FileComparison where
  rumdl_norm : List Warning
  mdl_prefilter : List Warning
  markdownlint_norm : List Warning
  file_relative : String
  file_absolute : String
  only_in_rumdl : Finset WKey
  only_in_markdownlint : Finset WKey
  common : Finset WKey
deriving DecidableEq

/-- The per-file body of `main`'s loop, from normalization to the three
partitions (an `Except.error` models an uncaught Python exception). -/
def processFile (cwd : PPath) (f : FileInput) : Except String FileComparison := do
  let rumdl_norm ← f.rumdl_raw.mapM (fun w => normalize_rumdl cwd w f.path)
  let mdl_prefilter ← f.markdownlint_raw.mapM (normalize_markdownlint cwd)
  let file_relative ←
    match f.path.relative_to cwd with
    | none => Except.error "ValueError: path is not relative to cwd"
    | some rel => pure rel.render
  let file_absolute := (f.path.absolute cwd).render
  let markdownlint_norm := mdl_prefilter.filter
    (fun w => w.file = some file_relative || w.file = some file_absolute)
  let parts := mainInlineCompare rumdl_norm markdownlint_norm
  pure { rumdl_norm := rumdl_norm
         mdl_prefilter := mdl_prefilter
         markdownlint_norm := markdownlint_norm
         file_relative := file_relative
         file_absolute := file_absolute
         only_in_rumdl := parts.1
         only_in_markdownlint := parts.2.1
         common := parts.2.2.1 }

/-- The run accumulator of `main`. -/
structure Totals where
  all_passed : Bool
  total_common : Nat
  total_rumdl_only : Nat
  total_markdownlint_only : Nat
deriving DecidableEq, Repr

/-- Accumulator state before the loop. -/
def initTotals : Totals :=
  { all_passed := true, total_common := 0, total_rumdl_only := 0
    total_markdownlint_only := 0 }

/-- Folding one file's comparison into the accumulator: the three counts
are added, and `all_passed` is forced to `False` when either difference
set is non-empty. -/
def stepTotals (t : Totals) (fc : FileComparison) : Totals :=
  { all_passed :=
      if fc.only_in_rumdl = ∅ ∧ fc.only_in_markdownlint = ∅ then
        t.all_passed
      else false
    total_common := t.total_common + fc.common.card
    total_rumdl_only := t.total_rumdl_only + fc.only_in_rumdl.card
    total_markdownlint_only :=
      t.total_markdownlint_only + fc.only_in_markdownlint.card }

/-- The loop of `main` over the (already sorted) corpus. -/
def runLoop (cwd : PPath) (files : List FileInput) : Except String Totals :=
  files.foldlM (fun t f => do pure (stepTotals t (← processFile cwd f))) initTotals

/-- The observable outcome of a completed run: the exit status, the
console lines the claims mention, and the files on which the two
external tools were invoked. -/
structure RunResult where
  exitCode : Nat
  output : List String
  invocations : List PPath
deriving DecidableEq, Repr

/-- `main()`: an empty corpus prints the diagnostic and exits 1 before
any tool invocation; otherwise every file is processed in order and the
exit status is 0 exactly when `all_passed` survived the loop. -/
def mainRun (cwd : PPath) (files : List FileInput) :
    Except String RunResult :=
  if files.isEmpty then
    .ok { exitCode := 1
          output := ["No markdown files found in parity_corpus/"]
          invocations := [] }
  else do
    let totals ← runLoop cwd files
    .ok { exitCode := if totals.all_passed then 0 else 1
          output :=
            if totals.all_passed then
              ["All files match between rumdl and markdownlint!"]
            else ["Some files have mismatches."]
          invocations := files.map FileInput.path }

/-- Identity-key mode of the Comparator (`relaxed` is the mode of
`parity_check.py`; `strict` is the mode of the near-identical script
variant). -/
inductive KeyMode where
  | strict
  | relaxed
deriving DecidableEq, Repr

/-- A mode-tagged identity key. -/
inductive IdKey where
  | strictK : Option String → Option Int → Int → Option String →
      Option String → IdKey
  | relaxedK : WKey → IdKey
deriving DecidableEq, Repr

/-- Modelled from the spec: the mode-configurable identity key of the
unified Comparator.  The strict-mode script variant is not under `src/`
(the spec's design notes describe "near-identical script variants"
differing only in identity-key mode); per spec §4.3 its identity is the
full serialized record (file, line, column, rule, message).  The relaxed
key is `warning_key` from `parity_check.py`. -/
def identityKey : KeyMode → Warning → IdKey
  | .strict, w => .strictK w.file w.line w.column w.rule w.message
  | .relaxed, w => .relaxedK (warning_key w)

/-- Modelled from the spec: key set of one tool's canonical list under
the selected mode (`set(identity_key(w) for w in sorted(l, key=key))`). -/
def keySetMode (m : KeyMode) (l : List Warning) : Finset IdKey :=
  ((pySorted l).map (identityKey m)).toFinset

/-- Modelled from the spec: the unified Comparator — the three partitions
(onlyInA, onlyInB, common) under the identity key of the selected mode.
At `KeyMode.relaxed` this is the comparison `parity_check.py` performs. -/
def partitionsMode (m : KeyMode) (A B : List Warning) :
    Finset IdKey × Finset IdKey × Finset IdKey :=
  let ka := keySetMode m A
  let kb := keySetMode m B
  (ka \ kb, kb \ ka, ka ∩ kb)

/-- `next((w for w in norm if w.get('file') == file and w.get('line') ==
line and w.get('rule') == rule), None)`: the representative record looked
up for a displayed key. -/
def repFor (norm : List Warning) (k : WKey) : Option Warning :=
  norm.find? (fun w => warning_key w == k)

/-- One printed sample line `Line {line}: {rule} - {message}`, abstracted
to its three data components; the message is `warning.get('message',
'No message') if warning else 'No message'` (the key is always present,
so a found record contributes its `message` field as is). -/
def displayLine (norm : List Warning) (k : WKey) :
    Option Int × Option String × Option String :=
  (k.2.1, k.2.2,
    match repFor norm k with
    | some w => w.message
    | none => some "No message")

/-- `for key in list(only_set)[:3]`: the sample lines printed for one
mismatch category.  `enum` models `list(only_set)` — the iteration order
of the Python `set`, which is not specified (it depends on the
process-specific string hash seed), so it enters the model as an explicit
argument. -/
def displayCategory (enum : List WKey) (norm : List Warning) :
    List (Option Int × Option String × Option String) :=
  (enum.take 3).map (displayLine norm)

/-- The number of common keys `processFile` reports for one file (0 when
processing raises, a case the theorems exclude). -/
def commonCount (cwd : PPath) (f : FileInput) : Nat :=
  match processFile cwd f with
  | .ok fc => fc.common.card
  | .error _ => 0

/-- The number of rumdl-only keys `processFile` reports for one file. -/
def rumdlOnlyCount (cwd : PPath) (f : FileInput) : Nat :=
  match processFile cwd f with
  | .ok fc => fc.only_in_rumdl.card
  | .error _ => 0

/-- The number of markdownlint-only keys for one file. -/
def mdlOnlyCount (cwd : PPath) (f : FileInput) : Nat :=
  match processFile cwd f with
  | .ok fc => fc.only_in_markdownlint.card
  | .error _ => 0

/-- Whether one file passes: both difference sets empty. -/
def filePasses (cwd : PPath) (f : FileInput) : Bool :=
  match processFile cwd f with
  | .ok fc => fc.only_in_rumdl = ∅ && fc.only_in_markdownlint = ∅
  | .error _ => false

/-- Concrete working directory used by the witness evaluations. -/
def exCwd : PPath := ⟨true, ["work"]⟩

/-- Concrete corpus file path used by the witness evaluations. -/
def exPath : PPath := ⟨true, ["work", "corpus", "a.md"]⟩

/-- A canonical record both tools report for `exPath` (line 5, MD013). -/
def exW1 : Warning :=
  ⟨some "corpus/a.md", some 5, 1, some "MD013", some "line too long", none⟩

/-- A canonical record for a different file, which the per-file filter
removes from the markdownlint list. -/
def exW2 : Warning := ⟨some "other.md", some 2, 1, some "MD999", none, none⟩

/-- A corpus file with one rumdl warning and two markdownlint warnings
(the second one reported against another file). -/
def exFile : FileInput :=
  { path := exPath
    rumdl_raw := [⟨some 5, some 1, some "MD013", some "line too long", none⟩]
    markdownlint_raw :=
      [⟨some exPath, some 5, none, some ["MD013"], some "line too long", none⟩,
       ⟨some ⟨false, ["other.md"]⟩, some 2, none, some ["MD999"], none, none⟩] }

/-- The comparison `processFile` computes for `exFile`. -/
def exComparison : FileComparison :=
  { rumdl_norm := [exW1]
    mdl_prefilter := [exW1, exW2]
    markdownlint_norm := [exW1]
    file_relative := "corpus/a.md"
    file_absolute := "/work/corpus/a.md"
    only_in_rumdl := ∅
    only_in_markdownlint := ∅
    common := {(some "corpus/a.md", some 5, some "MD013")} }

example : processFile exCwd exFile = Except.ok exComparison := by decide

theorem pyLE_of_key_eq {a b : Warning}
    (h : warning_key a = warning_key b) : pyLE a b := by
  have h1 : a.line = b.line := congrArg (fun k => k.2.1) h
  have h2 : a.rule = b.rule := congrArg (fun k => k.2.2) h
  simp only [pyLE, sortKey, h1, h2]
  exact le_refl _

theorem pySorted_perm (l : List Warning) : List.Perm (pySorted l) l :=
  List.perm_insertionSort pyLE l

theorem keySet_eq (l : List Warning) :
    keySet l = (l.map warning_key).toFinset :=
  List.toFinset_eq_of_perm _ _ ((pySorted_perm l).map warning_key)

theorem filter_pySorted (l : List Warning) (k : WKey) :
    (pySorted l).filter (fun w => warning_key w == k) =
      l.filter (fun w => warning_key w == k) := by
  set p : Warning → Bool := fun w => warning_key w == k with hp
  have hmemkey : ∀ w ∈ l.filter p, warning_key w = k := by
    intro w hw
    have := (List.mem_filter.mp hw).2
    simpa [hp] using this
  have hpair : (l.filter p).Pairwise pyLE := by
    apply List.pairwise_of_forall_mem_list
    intro a ha b hb
    exact pyLE_of_key_eq ((hmemkey a ha).trans (hmemkey b hb).symm)
  have hsub : List.Sublist (l.filter p) (pySorted l) :=
    List.sublist_insertionSort hpair (List.filter_sublist l)
  have hsub2 : List.Sublist (l.filter p) ((pySorted l).filter p) := by
    have : List.Sublist ((l.filter p).filter p) ((pySorted l).filter p) :=
      List.Sublist.filter p hsub
    simpa [List.filter_filter] using this
  have hperm : List.Perm ((pySorted l).filter p) (l.filter p) :=
    (pySorted_perm l).filter p
  exact (hsub2.eq_of_length hperm.length_eq.symm).symm

theorem find?_pySorted (l : List Warning) (k : WKey) :
    (pySorted l).find? (fun w => warning_key w == k) =
      l.find? (fun w => warning_key w == k) := by
  rw [← List.filter_head?, ← List.filter_head?, filter_pySorted]

theorem mapM_ok_length {α β : Type} (g : α → Except String β) :
    ∀ (l : List α) (l' : List β), l.mapM g = Except.ok l' → l'.length = l.length := by
  intro l
  induction l with
  | nil =>
    intro l' h
    simp only [List.mapM_nil, pure, Except.pure] at h
    cases h
    rfl
  | cons a as ih =>
    intro l' h
    rw [List.mapM_cons] at h
    cases hga : g a with
    | error e =>
      rw [hga] at h
      simp [Bind.bind, Except.bind] at h
    | ok b =>
      rw [hga] at h
      simp only [Bind.bind, Except.bind] at h
      cases hmas : as.mapM g with
      | error e => rw [hmas] at h; simp at h
      | ok bs =>
        rw [hmas] at h
        simp only [pure, Except.pure, Except.ok.injEq] at h
        cases h
        simp [ih bs hmas]

theorem stepTotals_all_passed (t : Totals) (fc : FileComparison) :
    (stepTotals t fc).all_passed =
      (t.all_passed &&
        (fc.only_in_rumdl = ∅ && fc.only_in_markdownlint = ∅)) := by
  by_cases h : fc.only_in_rumdl = ∅ ∧ fc.only_in_markdownlint = ∅
  · simp [stepTotals, h, h.1, h.2]
  · rw [Decidable.not_and_iff_or_not] at h
    rcases h with h | h <;> simp [stepTotals, h]

theorem runLoop_invariant (cwd : PPath) :
    ∀ (files : List FileInput) (t0 t : Totals),
      files.foldlM
        (fun t f => do pure (stepTotals t (← processFile cwd f))) t0 =
          Except.ok t →
      t.total_common = t0.total_common + (files.map (commonCount cwd)).sum ∧
      t.total_rumdl_only =
        t0.total_rumdl_only + (files.map (rumdlOnlyCount cwd)).sum ∧
      t.total_markdownlint_only =
        t0.total_markdownlint_only + (files.map (mdlOnlyCount cwd)).sum ∧
      t.all_passed = (t0.all_passed && files.all (filePasses cwd)) := by
  intro files
  induction files with
  | nil =>
    intro t0 t h
    simp only [List.foldlM_nil, pure, Except.pure, Except.ok.injEq] at h
    cases h
    simp
  | cons f fs ih =>
    intro t0 t h
    rw [List.foldlM_cons] at h
    cases hpf : processFile cwd f with
    | error e =>
      rw [hpf] at h
      simp [Bind.bind, Except.bind] at h
    | ok fc =>
      rw [hpf] at h
      simp only [Bind.bind, Except.bind, pure, Except.pure] at h
      obtain ⟨h1, h2, h3, h4⟩ := ih (stepTotals t0 fc) t h
      have hcc : commonCount cwd f = fc.common.card := by
        simp [commonCount, hpf]
      have hrc : rumdlOnlyCount cwd f = fc.only_in_rumdl.card := by
        simp [rumdlOnlyCount, hpf]
      have hmc : mdlOnlyCount cwd f = fc.only_in_markdownlint.card := by
        simp [mdlOnlyCount, hpf]
      have hfp : filePasses cwd f =
          (fc.only_in_rumdl = ∅ && fc.only_in_markdownlint = ∅) := by
        simp [filePasses, hpf]
      refine ⟨?_, ?_, ?_, ?_⟩
      · rw [h1]; simp [stepTotals, hcc, Nat.add_assoc]
      · rw [h2]; simp [stepTotals, hrc, Nat.add_assoc]
      · rw [h3]; simp [stepTotals, hmc, Nat.add_assoc]
      · rw [h4, stepTotals_all_passed, ← hfp, List.all_cons, Bool.and_assoc]

theorem compare_warnings_eq_keySet (A B : List Warning) :
    compare_warnings A B =
      (keySet A \ keySet B, keySet B \ keySet A, keySet A ∩ keySet B,
        keySet A \ keySet B = ∅ && keySet B \ keySet A = ∅) := rfl

theorem keySet_append_mem (A : List Warning) (w : Warning) (h : w ∈ A) :
    keySet (A ++ [w]) = keySet A := by
  rw [keySet_eq, keySet_eq, List.map_append, List.toFinset_append]
  apply Finset.union_eq_left.mpr
  simp only [List.map_cons, List.map_nil, List.toFinset_cons, List.toFinset_nil,
    insert_emptyc_eq, Finset.singleton_subset_iff, List.mem_toFinset, List.mem_map]
  exact ⟨w, h, rfl⟩

/-- C10: for every pair of canonical warning lists, the standalone
`compare_warnings` function computes the same onlyInA, onlyInB and common
partitions as the comparison written inline in `main`'s loop, and returns
`True` exactly when the inline logic classifies the file as a pass (both
difference sets empty). -/
theorem C10_compare_warnings_refines_inline (A B : List Warning) :
    compare_warnings A B = mainInlineCompare A B ∧
    ((compare_warnings A B).2.2.2 = true ↔
      (mainInlineCompare A B).1 = ∅ ∧ (mainInlineCompare A B).2.1 = ∅) := by
  refine ⟨rfl, ?_⟩
  simp [compare_warnings, mainInlineCompare]

/-- C7: appending to A (or to B) a duplicate of a record already present
in that list leaves the computed partitions onlyInA, onlyInB and common
(and the pass verdict) unchanged: the set-based comparison collapses
duplicate identity keys within one tool's output. -/
theorem C7_duplicate_append_invariant (A B : List Warning) (wa wb : Warning)
    (ha : wa ∈ A) (hb : wb ∈ B) :
    compare_warnings (A ++ [wa]) B = compare_warnings A B ∧
    compare_warnings A (B ++ [wb]) = compare_warnings A B := by
  simp [compare_warnings_eq_keySet, keySet_append_mem A wa ha,
    keySet_append_mem B wb hb]

/-- Witness for C7 at concrete lists. -/
theorem C7_witness :
    exW1 ∈ [exW1] ∧ exW2 ∈ [exW2, exW1] ∧
    (compare_warnings ([exW1] ++ [exW1]) [exW2, exW1] =
       compare_warnings [exW1] [exW2, exW1] ∧
     compare_warnings [exW1] ([exW2, exW1] ++ [exW2]) =
       compare_warnings [exW1] [exW2, exW1]) :=
  ⟨by decide, by decide,
    C7_duplicate_append_invariant _ _ _ _ (by decide) (by decide)⟩

/-- C3 (code evaluated at the failing input): a markdownlint warning
whose `ruleNames` field is a present but *empty* list makes
`normalize_markdownlint` raise `IndexError` (it evaluates
`warning.get("ruleNames", [None])[0]` on `[]`), instead of degrading to a
default value as the claim states. -/
theorem C3_empty_ruleNames_raises :
    normalize_markdownlint exCwd
      ⟨some ⟨false, ["corpus", "a.md"]⟩, some 5, none, some [], none, none⟩ =
      Except.error "IndexError: list index out of range" := rfl

/-- C4 counterexample: a raw warning with no line-number field yields a
canonical record whose `line` field is `None` (modelled `none`), not the
integer 0, under both normalizers. -/
theorem C4_counterexample :
    (normalize_rumdl exCwd ⟨none, none, some "MD001", none, none⟩ exPath =
      Except.ok ⟨some "corpus/a.md", none, 1, some "MD001", none, none⟩) ∧
    (normalize_markdownlint exCwd
        ⟨some ⟨false, ["corpus", "a.md"]⟩, none, none, some ["MD001"],
         none, none⟩ =
      Except.ok ⟨some "corpus/a.md", none, 1, some "MD001", none, none⟩) ∧
    (none : Option Int) ≠ some 0 :=
  ⟨rfl, rfl, by decide⟩

/-- C4 as amended: a raw warning with no line-number field yields a
canonical record whose `line` field is `none` (Python `None`), under
either normalizer; the 0 default exists only in the sort-key lookup
`w.get("line", 0)`, which never fires because canonical records always
carry the `line` key. -/
theorem C4_missing_line_is_none (cwd : PPath) (rwarn : RumdlRaw)
    (file : PPath) (mw : MdlRaw) (rec1 rec2 : Warning)
    (h1 : rwarn.line = none)
    (h2 : normalize_rumdl cwd rwarn file = Except.ok rec1)
    (h3 : mw.lineNumber = none)
    (h4 : normalize_markdownlint cwd mw = Except.ok rec2) :
    rec1.line = none ∧ rec2.line = none := by
  constructor
  · unfold normalize_rumdl at h2
    cases hrel : file.relative_to cwd with
    | none => rw [hrel] at h2; cases h2
    | some rel =>
      rw [hrel] at h2
      cases h2
      exact h1
  · cases hrn : mw.ruleNames with
    | none =>
      simp only [normalize_markdownlint, hrn] at h4
      cases h4
      exact h3
    | some rns =>
      cases rns with
      | nil =>
        simp only [normalize_markdownlint, hrn] at h4
        cases h4
      | cons r rs =>
        simp only [normalize_markdownlint, hrn] at h4
        cases h4
        exact h3

/-- Witness for C4's amended statement at concrete inputs. -/
theorem C4_witness :
    ((⟨none, none, some "MD001", none, none⟩ : RumdlRaw).line = none) ∧
    (normalize_rumdl exCwd ⟨none, none, some "MD001", none, none⟩ exPath =
      Except.ok ⟨some "corpus/a.md", none, 1, some "MD001", none, none⟩) ∧
    ((⟨some ⟨false, ["corpus", "a.md"]⟩, none, none, some ["MD001"], none,
        none⟩ : MdlRaw).lineNumber = none) ∧
    (normalize_markdownlint exCwd
        ⟨some ⟨false, ["corpus", "a.md"]⟩, none, none, some ["MD001"], none,
         none⟩ =
      Except.ok ⟨some "corpus/a.md", none, 1, some "MD001", none, none⟩) ∧
    ((⟨some "corpus/a.md", none, 1, some "MD001", none, none⟩ :
        Warning).line = none ∧
     (⟨some "corpus/a.md", none, 1, some "MD001", none, none⟩ :
        Warning).line = none) :=
  ⟨rfl, rfl, rfl, rfl,
    C4_missing_line_is_none exCwd ⟨none, none, some "MD001", none, none⟩
      exPath
      ⟨some ⟨false, ["corpus", "a.md"]⟩, none, none, some ["MD001"], none,
        none⟩
      ⟨some "corpus/a.md", none, 1, some "MD001", none, none⟩
      ⟨some "corpus/a.md", none, 1, some "MD001", none, none⟩
      rfl rfl rfl rfl⟩

/-- C2 counterexample: for an absolute source path that does NOT lie
under the working root the claim says the path is preserved unchanged,
but `normalize_rumdl` has no fallback around `relative_to` and raises
`ValueError` instead of returning any record. -/
theorem C2_counterexample :
    (⟨true, ["elsewhere", "x.md"]⟩ : PPath).abs = true ∧
    (⟨true, ["elsewhere", "x.md"]⟩ : PPath).relative_to exCwd = none ∧
    normalize_rumdl exCwd ⟨some 1, none, some "MD001", none, none⟩
      ⟨true, ["elsewhere", "x.md"]⟩ =
      Except.error "ValueError: path is not relative to cwd" :=
  ⟨rfl, rfl, rfl⟩

/-- C2 as amended: the markdownlint normalizer applies the claimed
normalization to its reported path — an absolute path under the working
root is rewritten relative to it and any other path is preserved
unchanged — but the rumdl normalizer instead unconditionally rewrites the
source-file path relative to the working root, raising `ValueError`
(returning no record) whenever the path is not under it. -/
theorem C2_path_normalization (cwd : PPath) (rwarn : RumdlRaw)
    (file : PPath) (mw : MdlRaw) (p : PPath) (rec : Warning) :
    (∀ rel, file.relative_to cwd = some rel →
      normalize_rumdl cwd rwarn file = Except.ok
        { file := some rel.render, line := rwarn.line,
          column := rwarn.column.getD 1, rule := rwarn.rule_name,
          message := rwarn.message, fix := rwarn.fix }) ∧
    (file.relative_to cwd = none →
      normalize_rumdl cwd rwarn file =
        Except.error "ValueError: path is not relative to cwd") ∧
    (mw.fileName = some p → normalize_markdownlint cwd mw = Except.ok rec →
      rec.file = some (PPath.render
        (if p.abs then (p.relative_to cwd).getD p else p))) := by
  refine ⟨?_, ?_, ?_⟩
  · intro rel h
    simp [normalize_rumdl, h]
  · intro h
    simp [normalize_rumdl, h]
  · intro hf hok
    cases hrn : mw.ruleNames with
    | none =>
      simp only [normalize_markdownlint, hrn, hf] at hok
      cases hok
      cases habs : p.abs <;> cases hrt : p.relative_to cwd <;>
        simp [habs, hrt]
    | some rns =>
      cases rns with
      | nil =>
        simp only [normalize_markdownlint, hrn] at hok
        cases hok
      | cons r rs =>
        simp only [normalize_markdownlint, hrn, hf] at hok
        cases hok
        cases habs : p.abs <;> cases hrt : p.relative_to cwd <;>
          simp [habs, hrt]

/-- Witness for C2's amended statement at concrete inputs: a path under
the root is rewritten, a path outside it raises on the rumdl side, and
the markdownlint side rewrites an absolute under-root path. -/
theorem C2_witness :
    (normalize_rumdl exCwd ⟨some 5, some 1, some "MD013",
        some "line too long", none⟩ exPath = Except.ok exW1) ∧
    (normalize_rumdl exCwd ⟨some 5, some 1, some "MD013",
        some "line too long", none⟩ ⟨true, ["elsewhere", "x.md"]⟩ =
      Except.error "ValueError: path is not relative to cwd") ∧
    exW1.file = some "corpus/a.md" :=
  ⟨(C2_path_normalization exCwd
      ⟨some 5, some 1, some "MD013", some "line too long", none⟩ exPath
      ⟨some exPath, some 5, none, some ["MD013"], some "line too long",
        none⟩ exPath exW1).1 ⟨false, ["corpus", "a.md"]⟩ rfl,
   (C2_path_normalization exCwd
      ⟨some 5, some 1, some "MD013", some "line too long", none⟩
      ⟨true, ["elsewhere", "x.md"]⟩
      ⟨some exPath, some 5, none, some ["MD013"], some "line too long",
        none⟩ exPath exW1).2.1 rfl,
   (C2_path_normalization exCwd
      ⟨some 5, some 1, some "MD013", some "line too long", none⟩ exPath
      ⟨some exPath, some 5, none, some ["MD013"], some "line too long",
        none⟩ exPath exW1).2.2 rfl rfl⟩

theorem keySetMode_singleton (m : KeyMode) (w : Warning) :
    keySetMode m [w] = {identityKey m w} := rfl

/-- C1: under the mode-configurable identity key, two warnings agreeing
on (file, line, rule) but differing in message text are classified as
common in relaxed mode (the identity is (file, line, rule) only), while
strict mode (identity = the full (file, line, column, rule, message)
record) classifies them as one onlyInA and one onlyInB entry. -/
theorem C1_identity_key_mode (w1 w2 : Warning)
    (hk : warning_key w1 = warning_key w2) (hm : w1.message ≠ w2.message) :
    partitionsMode KeyMode.relaxed [w1] [w2] =
      (∅, ∅, {IdKey.relaxedK (warning_key w1)}) ∧
    partitionsMode KeyMode.strict [w1] [w2] =
      ({identityKey KeyMode.strict w1}, {identityKey KeyMode.strict w2},
        ∅) := by
  constructor
  · have hkey : identityKey KeyMode.relaxed w2 =
        IdKey.relaxedK (warning_key w1) := by
      simp [identityKey, hk]
    simp [partitionsMode, keySetMode_singleton, hkey, identityKey,
      Finset.sdiff_self, Finset.inter_self, hk]
  · have hne : identityKey KeyMode.strict w1 ≠ identityKey KeyMode.strict w2 := by
      simp only [identityKey, ne_eq, IdKey.strictK.injEq, not_and]
      intro _ _ _ _
      exact hm
    have h1 : ({identityKey KeyMode.strict w1} : Finset IdKey) \
        {identityKey KeyMode.strict w2} = {identityKey KeyMode.strict w1} := by
      rw [Finset.sdiff_eq_self_iff_disjoint, Finset.disjoint_singleton]
      exact hne
    have h2 : ({identityKey KeyMode.strict w2} : Finset IdKey) \
        {identityKey KeyMode.strict w1} = {identityKey KeyMode.strict w2} := by
      rw [Finset.sdiff_eq_self_iff_disjoint, Finset.disjoint_singleton]
      exact hne.symm
    have h3 : ({identityKey KeyMode.strict w1} : Finset IdKey) ∩
        {identityKey KeyMode.strict w2} = ∅ := by
      apply Finset.singleton_inter_of_not_mem
      simpa using hne
    simp [partitionsMode, keySetMode_singleton, h1, h2, h3]

/-- Witness for C1 at two concrete records agreeing on (file, line, rule)
and differing in message. -/
theorem C1_witness :
    warning_key exW1 =
      warning_key ⟨some "corpus/a.md", some 5, 1, some "MD013",
        some "other wording", none⟩ ∧
    exW1.message ≠
      (⟨some "corpus/a.md", some 5, 1, some "MD013", some "other wording",
        none⟩ : Warning).message ∧
    (partitionsMode KeyMode.relaxed [exW1]
        [⟨some "corpus/a.md", some 5, 1, some "MD013", some "other wording",
          none⟩] =
      (∅, ∅, {IdKey.relaxedK (warning_key exW1)}) ∧
     partitionsMode KeyMode.strict [exW1]
        [⟨some "corpus/a.md", some 5, 1, some "MD013", some "other wording",
          none⟩] =
      ({identityKey KeyMode.strict exW1},
       {identityKey KeyMode.strict
          ⟨some "corpus/a.md", some 5, 1, some "MD013", some "other wording",
            none⟩}, ∅)) :=
  ⟨by decide, by decide, C1_identity_key_mode _ _ (by decide) (by decide)⟩

/-- C6 counterexample: the displayed keys are `list(only_set)[:3]`, a
prefix of the Python set's iteration order, which is not specified (it
varies with the per-process string hash seed).  Two enumerations of the
same four-element key set — both valid iteration orders of that set —
produce different sample selections, even as sets, refuting the claim
that the selection is determined by the sorted order of the records. -/
theorem C6_counterexample :
    ([(some "a.md", some 1, some "MD001"),
      (some "a.md", some 2, some "MD002"),
      (some "a.md", some 3, some "MD003"),
      (some "a.md", some 4, some "MD004")] : List WKey).toFinset =
    ([(some "a.md", some 4, some "MD004"),
      (some "a.md", some 3, some "MD003"),
      (some "a.md", some 2, some "MD002"),
      (some "a.md", some 1, some "MD001")] : List WKey).toFinset ∧
    ([(some "a.md", some 1, some "MD001"),
      (some "a.md", some 2, some "MD002"),
      (some "a.md", some 3, some "MD003"),
      (some "a.md", some 4, some "MD004")] : List WKey).Nodup ∧
    ([(some "a.md", some 4, some "MD004"),
      (some "a.md", some 3, some "MD003"),
      (some "a.md", some 2, some "MD002"),
      (some "a.md", some 1, some "MD001")] : List WKey).Nodup ∧
    displayCategory
      [(some "a.md", some 1, some "MD001"),
       (some "a.md", some 2, some "MD002"),
       (some "a.md", some 3, some "MD003"),
       (some "a.md", some 4, some "MD004")] [] ≠
    displayCategory
      [(some "a.md", some 4, some "MD004"),
       (some "a.md", some 3, some "MD003"),
       (some "a.md", some 2, some "MD002"),
       (some "a.md", some 1, some "MD001")] [] ∧
    (([(some "a.md", some 1, some "MD001"),
       (some "a.md", some 2, some "MD002"),
       (some "a.md", some 3, some "MD003"),
       (some "a.md", some 4, some "MD004")] : List WKey).take 3).toFinset ≠
    (([(some "a.md", some 4, some "MD004"),
       (some "a.md", some 3, some "MD003"),
       (some "a.md", some 2, some "MD002"),
       (some "a.md", some 1, some "MD001")] : List WKey).take 3).toFinset := by
  refine ⟨by decide, by decide, by decide, by decide, by decide⟩

/-- C6 as amended: for each *displayed* key the representative record is
the first occurrence in the input list — which, by stability of the sort,
coincides with the first occurrence in (line, rule)-sorted order — so the
displayed record data is deterministic; but which (at most 3) keys are
displayed is the prefix of the set's unspecified iteration order, so the
selection is only guaranteed identical across runs for a fixed iteration
order. -/
theorem C6_representative_stability (enum : List WKey)
    (norm : List Warning) (k : WKey) :
    displayCategory enum norm = (enum.take 3).map (displayLine norm) ∧
    repFor (pySorted norm) k = repFor norm k :=
  ⟨rfl, find?_pySorted norm k⟩

/-- C9: in `main`'s loop the normalized markdownlint list is reassigned
to keep only records whose `file` field equals the relative or the
absolute rendering of the file being processed, while the rumdl list is
used unfiltered (every raw rumdl warning contributes a record). -/
theorem C9_markdownlint_file_filter (cwd : PPath) (f : FileInput)
    (fc : FileComparison) (h : processFile cwd f = Except.ok fc) :
    f.rumdl_raw.mapM (fun w => normalize_rumdl cwd w f.path) =
      Except.ok fc.rumdl_norm ∧
    fc.rumdl_norm.length = f.rumdl_raw.length ∧
    fc.markdownlint_norm = fc.mdl_prefilter.filter
      (fun w => w.file = some fc.file_relative ||
        w.file = some fc.file_absolute) ∧
    (∀ w, w ∈ fc.markdownlint_norm ↔ w ∈ fc.mdl_prefilter ∧
      (w.file = some fc.file_relative ∨
        w.file = some fc.file_absolute)) := by
  cases hr : f.rumdl_raw.mapM (fun w => normalize_rumdl cwd w f.path) with
  | error e =>
    simp only [processFile, hr, Bind.bind, Except.bind] at h
    exact Except.noConfusion h
  | ok rn =>
    cases hm : f.markdownlint_raw.mapM (normalize_markdownlint cwd) with
    | error e =>
      simp only [processFile, hr, hm, Bind.bind, Except.bind] at h
      exact Except.noConfusion h
    | ok mp =>
      cases hrel : f.path.relative_to cwd with
      | none =>
        simp only [processFile, hr, hm, hrel, Bind.bind, Except.bind] at h
        exact Except.noConfusion h
      | some rel =>
        simp only [processFile, hr, hm, hrel, Bind.bind, Except.bind, pure,
          Except.pure, Except.ok.injEq] at h
        subst h
        refine ⟨rfl, mapM_ok_length _ _ _ hr, rfl, ?_⟩
        intro w
        simp [List.mem_filter]

/-- Witness for C9 at a concrete file whose markdownlint output contains
a record for another file. -/
theorem C9_witness :
    processFile exCwd exFile = Except.ok exComparison ∧
    (exW2 ∈ exComparison.markdownlint_norm ↔
      exW2 ∈ exComparison.mdl_prefilter ∧
      (exW2.file = some exComparison.file_relative ∨
        exW2.file = some exComparison.file_absolute)) := by
  have h : processFile exCwd exFile = Except.ok exComparison := by decide
  exact ⟨h, (C9_markdownlint_file_filter exCwd exFile exComparison h).2.2.2 exW2⟩

/-- C8: after processing any list of corpus files, the run-wide totals
equal the sums of the corresponding per-file partition sizes, and
`all_passed` is false exactly when some processed file had a non-empty
onlyInA or onlyInB partition. -/
theorem C8_totals_are_sums (cwd : PPath) (files : List FileInput)
    (totals : Totals) (h : runLoop cwd files = Except.ok totals) :
    totals.total_common = (files.map (commonCount cwd)).sum ∧
    totals.total_rumdl_only = (files.map (rumdlOnlyCount cwd)).sum ∧
    totals.total_markdownlint_only = (files.map (mdlOnlyCount cwd)).sum ∧
    (totals.all_passed = false ↔
      ∃ f ∈ files, filePasses cwd f = false) := by
  obtain ⟨h1, h2, h3, h4⟩ := runLoop_invariant cwd files initTotals totals h
  refine ⟨by simpa [initTotals] using h1, by simpa [initTotals] using h2,
    by simpa [initTotals] using h3, ?_⟩
  rw [h4]
  simp [initTotals]

/-- Witness for C8 at a one-file corpus with full parity. -/
theorem C8_witness :
    runLoop exCwd [exFile] = Except.ok ⟨true, 1, 0, 0⟩ ∧
    ((1 : Nat) = ([exFile].map (commonCount exCwd)).sum ∧
     (0 : Nat) = ([exFile].map (rumdlOnlyCount exCwd)).sum ∧
     (0 : Nat) = ([exFile].map (mdlOnlyCount exCwd)).sum ∧
     (true = false ↔ ∃ f ∈ [exFile], filePasses exCwd f = false)) := by
  have h : runLoop exCwd [exFile] = Except.ok ⟨true, 1, 0, 0⟩ := by decide
  exact ⟨h, C8_totals_are_sums exCwd [exFile] ⟨true, 1, 0, 0⟩ h⟩

/-- C5: a completed run exits 0 exactly when the corpus is non-empty and
every file passed; an empty corpus exits 1, printing only the
"No markdown files found" diagnostic, with no tool invocation; a
non-empty corpus with any mismatch exits 1. -/
theorem C5_exit_status (cwd : PPath) (files : List FileInput)
    (res : RunResult) (h : mainRun cwd files = Except.ok res) :
    (res.exitCode = 0 ↔
      files ≠ [] ∧ ∀ f ∈ files, filePasses cwd f = true) ∧
    (files = [] →
      res.exitCode = 1 ∧
      res.output = ["No markdown files found in parity_corpus/"] ∧
      res.invocations = []) := by
  by_cases hempty : files.isEmpty
  · have hnil : files = [] := List.isEmpty_iff.mp hempty
    subst hnil
    simp only [mainRun, List.isEmpty_nil, if_true, Except.ok.injEq] at h
    subst h
    refine ⟨?_, fun _ => ⟨rfl, rfl, rfl⟩⟩
    simp
  · have hne : files ≠ [] := fun hn => hempty (by simp [hn])
    rw [mainRun, if_neg hempty] at h
    cases hloop : runLoop cwd files with
    | error e =>
      rw [hloop] at h
      simp only [Bind.bind, Except.bind] at h
      exact Except.noConfusion h
    | ok totals =>
      rw [hloop] at h
      simp only [Bind.bind, Except.bind, Except.ok.injEq] at h
      subst h
      have inv := runLoop_invariant cwd files initTotals totals hloop
      have hall : totals.all_passed = files.all (filePasses cwd) := by
        simpa [initTotals] using inv.2.2.2
      refine ⟨?_, fun hn => absurd hn hne⟩
      cases hap : totals.all_passed with
      | true =>
        simp only [hap, if_true]
        rw [hap] at hall
        constructor
        · intro _
          refine ⟨hne, ?_⟩
          intro f hf
          exact (List.all_eq_true.mp hall.symm) f hf
        · intro _
          trivial
      | false =>
        simp only [hap, if_false]
        rw [hap] at hall
        constructor
        · intro hcontra
          exact absurd hcontra (by decide)
        · intro ⟨_, hpass⟩
          have : files.all (filePasses cwd) = true :=
            List.all_eq_true.mpr hpass
          rw [← hall] at this
          exact absurd this (by decide)

/-- Witness for C5 at a one-file corpus (exit 0) — the empty-corpus side
is discharged by a second application inside the conjunction. -/
theorem C5_witness :
    (mainRun exCwd [exFile] = Except.ok
      ⟨0, ["All files match between rumdl and markdownlint!"], [exPath]⟩ ∧
     ((0 : Nat) = 0 ↔
       ([exFile] : List FileInput) ≠ [] ∧
       ∀ f ∈ [exFile], filePasses exCwd f = true)) ∧
    (mainRun exCwd ([] : List FileInput) = Except.ok
      ⟨1, ["No markdown files found in parity_corpus/"], []⟩ ∧
     ((1 : Nat) = 1 ∧
      (["No markdown files found in parity_corpus/"] : List String) =
        ["No markdown files found in parity_corpus/"] ∧
      ([] : List PPath) = [])) := by
  have h1 : mainRun exCwd [exFile] = Except.ok
      ⟨0, ["All files match between rumdl and markdownlint!"], [exPath]⟩ := by
    decide
  have h2 : mainRun exCwd ([] : List FileInput) = Except.ok
      ⟨1, ["No markdown files found in parity_corpus/"], []⟩ := rfl
  exact ⟨⟨h1, (C5_exit_status exCwd [exFile] _ h1).1⟩,
    ⟨h2, (C5_exit_status exCwd [] _ h2).2 rfl⟩⟩
